import Mathlib

/-!
Verification development for the `my-operator` command-execution core:
the Process Runner (`DefaultRunner.Run`), the Declarative Apply
(`ApplyClusterRoleBinding`) and the Credential Poller
(`ServiceAccountToken`).  The Go code is embedded shallowly: external
process execution is an oracle mapping the executed command descriptor to
an observed outcome, the cancellation context is an oracle telling which
select arm fires, and machine effects (logging) are traced explicitly.
-/

namespace MyOp

/-- A command descriptor, the relevant fields of Go's `exec.Cmd`:
`Path`, `Args` (the full argv, `args[0]` being the program name),
`Dir`, `Stdin` (`none` models a nil reader; `some ""` is a zero-byte
stream, which is distinct from absent), `Env`. -/
structure GoCmd where
  path : String
  args : List String
  dir : String
  stdin : Option String
  env : List String
deriving DecidableEq, Repr

/-- The observable outcome of actually running one external process:
captured stdout, captured stderr, and `fail = some e` when the process
could not start or exited non-zero (`e` renders the underlying error). -/
structure ExecBehavior where
  stdout : String
  stderr : String
  fail : Option String
deriving DecidableEq, Repr

/-- A Go error produced by `fmt.Errorf(..., err)` with `%w`: the rendered
message together with the wrapped (non-nil) underlying cause. -/
structure RunError where
  msg : String
  cause : String
deriving DecidableEq, Repr

/-- Punctuation written via code points so string literals stay free of
brace and quote characters. -/
def quoteC : Char := Char.ofNat 34

def backslashC : Char := Char.ofNat 92

def lbraceC : Char := Char.ofNat 123

def rbraceC : Char := Char.ofNat 125

/-- Go's `unicode.IsSpace`: the full White_Space set
(U+0009-U+000D, U+0020, U+0085, U+00A0, U+1680, U+2000-U+200A,
U+2028, U+2029, U+202F, U+205F, U+3000). -/
def isSpaceGo (c : Char) : Bool :=
  c = ' ' ∨ c = '\t' ∨ c = '\n' ∨ c = Char.ofNat 11 ∨ c = Char.ofNat 12 ∨ c = '\r' ∨
    c = Char.ofNat 133 ∨ c = Char.ofNat 160 ∨ c = Char.ofNat 5760 ∨
    (8192 ≤ c.toNat ∧ c.toNat ≤ 8202) ∨ c = Char.ofNat 8232 ∨ c = Char.ofNat 8233 ∨
    c = Char.ofNat 8239 ∨ c = Char.ofNat 8287 ∨ c = Char.ofNat 12288

/-- `strings.TrimSpace`: drop leading and trailing whitespace. -/
def trimSpace (s : String) : String :=
  String.mk (((s.toList.dropWhile isSpaceGo).reverse.dropWhile isSpaceGo).reverse)

/-- Lowercase hexadecimal digit, as `strconv` renders `\x` escapes. -/
def hexDigitL (n : Nat) : Char :=
  if n < 10 then Char.ofNat (48 + n) else Char.ofNat (87 + n)

/-- One character of `strconv.Quote`'s rendering (as invoked by `fmt`'s
`%q`): quote and backslash get a backslash escape, the named control
escapes are used where they exist, the remaining control characters and
DEL become `\xhh`, and printable ASCII is unchanged.  Runes at and above
U+0080 are kept unchanged; Go additionally escapes the non-printable
ones among them as `\u` sequences, on which no statement below
depends — the verbatim-containment conjunct of the failure-message
theorem is restricted to escape-free printable ASCII, where the model
and Go agree exactly. -/
def quoteCharGo (c : Char) : List Char :=
  if c = quoteC then [backslashC, quoteC]
  else if c = backslashC then [backslashC, backslashC]
  else if c = Char.ofNat 7 then [backslashC, 'a']
  else if c = Char.ofNat 8 then [backslashC, 'b']
  else if c = Char.ofNat 12 then [backslashC, 'f']
  else if c = '\n' then [backslashC, 'n']
  else if c = '\r' then [backslashC, 'r']
  else if c = '\t' then [backslashC, 't']
  else if c = Char.ofNat 11 then [backslashC, 'v']
  else if c.toNat < 32 ∨ c.toNat = 127 then
    [backslashC, 'x', hexDigitL (c.toNat / 16), hexDigitL (c.toNat % 16)]
  else [c]

/-- The escaped body of `strconv.Quote`. -/
def quoteBody : List Char → List Char
  | [] => []
  | c :: cs => quoteCharGo c ++ quoteBody cs

/-- Go's `%q` rendering: the escaped string surrounded by double
quotes. -/
def goQuote (s : String) : String := String.mk (quoteC :: quoteBody s.toList ++ [quoteC])

/-- Decidable prefix test on character lists. -/
def isPrefixL : List Char → List Char → Bool
  | [], _ => true
  | _ :: _, [] => false
  | a :: as, b :: bs => a == b && isPrefixL as bs

/-- Decidable contiguous-substring test on character lists. -/
def containsSubL (n : List Char) : List Char → Bool
  | [] => isPrefixL n []
  | c :: cs => isPrefixL n (c :: cs) || containsSubL n cs

/-- `strings.Join(l, " ")`. -/
def joinSpace (l : List String) : String := String.intercalate " " l

/-- The fixed environment marker appended by the Runner. -/
def envMarker : String := "GO111MODULE=on"

/-- Lines 29-46 of the Runner: rebuild the caller's descriptor as a
context-bound command.  `path` falls back to `args[0]` when empty,
the argv is `[path] ++ args[1:]` (as set by `exec.CommandContext`),
`dir` and `stdin` are copied, and the environment policy is applied:
`cmd.Env` if non-empty, else the host environment, with `GO111MODULE=on`
appended in either case. -/
def rebuildCmd (osEnviron : List String) (cmd : GoCmd) : GoCmd :=
  let path := if cmd.path = "" ∧ cmd.args.length > 0 then cmd.args.headD "" else cmd.path
  let tailArgs := if cmd.args.length > 1 then cmd.args.tail else []
  let env0 := cmd.env
  let env := if env0.length = 0 then osEnviron ++ [envMarker] else env0 ++ [envMarker]
  { path := path, args := path :: tailArgs, dir := cmd.dir, stdin := cmd.stdin, env := env }

/-- `DefaultRunner.Run`: rebuild the command, run it through the external
world (`world` maps the executed descriptor to its outcome), and return
stdout plus, on failure, the wrapping error
`"%q failed: <trim(stderr+"\n"+stdout)>: <cause>"`. -/
def runCmd (osEnviron : List String) (world : GoCmd → ExecBehavior) (cmd : GoCmd) :
    String × Option RunError :=
  let c2 := rebuildCmd osEnviron cmd
  let command := joinSpace c2.args
  let b := world c2
  match b.fail with
  | some e =>
    let combined := trimSpace (b.stderr ++ "\n" ++ b.stdout)
    (b.stdout, some { msg := goQuote command ++ " failed: " ++ combined ++ ": " ++ e, cause := e })
  | none => (b.stdout, none)

/-- The executed command as the spec's cancellation-ownership sentence
describes it literally: same path (or, when the path is absent, the first
argument as the path with the remaining arguments as the argument list),
same working directory, same input stream, and same environment list. -/
def specExecutedCmd (cmd : GoCmd) : GoCmd :=
  let path :=
    if cmd.path = "" then
      match cmd.args with
      | [] => cmd.path
      | a0 :: _ => a0
    else cmd.path
  { path := path, args := path :: cmd.args.drop 1, dir := cmd.dir, stdin := cmd.stdin,
    env := cmd.env }

/-- The executed command as the spec describes it once the environment
policy is taken into account: as `specExecutedCmd`, except that the
environment is the caller's list with the fixed marker appended, or the
host environment with the marker appended when the caller supplied none. -/
def specExecutedCmdEnvPolicy (osEnviron : List String) (cmd : GoCmd) : GoCmd :=
  { specExecutedCmd cmd with
    env := if cmd.env = [] then osEnviron ++ [envMarker] else cmd.env ++ [envMarker] }

/-! ### JSON values and `encoding/json` unmarshalling

`tryOnce` feeds the Runner's stdout to `json.Unmarshal` with target
`struct { Status struct { Token string } }`.  The parser below follows the
JSON grammar accepted by `encoding/json`; field lookup uses the exact tag
names (Go's additional case-insensitive fallback never fires for the
inputs this system exchanges), and duplicate keys keep the last value, as
sequential decoding does. -/

inductive Json where
  | null : Json
  | bool : Bool → Json
  | num : String → Json
  | str : String → Json
  | arr : List Json → Json
  | obj : List (String × Json) → Json

/-- Drop leading JSON whitespace. -/
def skipWs : List Char → List Char
  | [] => []
  | c :: cs => if c = ' ' ∨ c = '\t' ∨ c = '\n' ∨ c = '\r' then skipWs cs else c :: cs

def hexVal (c : Char) : Option Nat :=
  if '0' ≤ c ∧ c ≤ '9' then some (c.toNat - '0'.toNat)
  else if 'a' ≤ c ∧ c ≤ 'f' then some (c.toNat - 'a'.toNat + 10)
  else if 'A' ≤ c ∧ c ≤ 'F' then some (c.toNat - 'A'.toNat + 10)
  else none

/-- Parse the body of a JSON string literal (the opening quote already
consumed), handling the escape sequences of the JSON grammar; raw control
characters are rejected.  A `\u` high surrogate combines with an
immediately following low surrogate escape into one rune; an unpaired
surrogate becomes U+FFFD, as in Go's decoder.  Fuel-driven so the
recursion is structural. -/
def parseStrBody : Nat → List Char → List Char → Option (String × List Char)
  | 0, _, _ => none
  | fuel + 1, cs, acc =>
    match cs with
    | [] => none
    | c :: rest =>
      if c = quoteC then some (String.mk acc.reverse, rest)
      else if c = backslashC then
        match rest with
        | [] => none
        | e :: rest2 =>
          if e = quoteC then parseStrBody fuel rest2 (quoteC :: acc)
          else if e = backslashC then parseStrBody fuel rest2 (backslashC :: acc)
          else if e = '/' then parseStrBody fuel rest2 ('/' :: acc)
          else if e = 'b' then parseStrBody fuel rest2 (Char.ofNat 8 :: acc)
          else if e = 'f' then parseStrBody fuel rest2 (Char.ofNat 12 :: acc)
          else if e = 'n' then parseStrBody fuel rest2 ('\n' :: acc)
          else if e = 'r' then parseStrBody fuel rest2 ('\r' :: acc)
          else if e = 't' then parseStrBody fuel rest2 ('\t' :: acc)
          else if e = 'u' then
            match rest2 with
            | h1 :: h2 :: h3 :: h4 :: rest3 =>
              match hexVal h1, hexVal h2, hexVal h3, hexVal h4 with
              | some a, some b, some c3, some d =>
                let n := ((a * 16 + b) * 16 + c3) * 16 + d
                if 55296 ≤ n ∧ n ≤ 56319 then
                  match rest3 with
                  | e2 :: u2 :: g1 :: g2 :: g3 :: g4 :: rest4 =>
                    if e2 = backslashC ∧ u2 = 'u' then
                      match hexVal g1, hexVal g2, hexVal g3, hexVal g4 with
                      | some a2, some b2, some c4, some d2 =>
                        let m := ((a2 * 16 + b2) * 16 + c4) * 16 + d2
                        if 56320 ≤ m ∧ m ≤ 57343 then
                          parseStrBody fuel rest4
                            (Char.ofNat (65536 + (n - 55296) * 1024 + (m - 56320)) :: acc)
                        else parseStrBody fuel rest3 (Char.ofNat 65533 :: acc)
                      | _, _, _, _ => parseStrBody fuel rest3 (Char.ofNat 65533 :: acc)
                    else parseStrBody fuel rest3 (Char.ofNat 65533 :: acc)
                  | _ => parseStrBody fuel rest3 (Char.ofNat 65533 :: acc)
                else if 56320 ≤ n ∧ n ≤ 57343 then
                  parseStrBody fuel rest3 (Char.ofNat 65533 :: acc)
                else
                  parseStrBody fuel rest3 (Char.ofNat n :: acc)
              | _, _, _, _ => none
            | _ => none
          else none
      else if c.toNat < 32 then none
      else parseStrBody fuel rest (c :: acc)

/-- Match a fixed keyword tail (`rue`, `alse`, `ull`). -/
def stripLit : List Char → List Char → Option (List Char)
  | [], cs => some cs
  | _ :: _, [] => none
  | l :: ls, c :: cs => if c = l then stripLit ls cs else none

/-- Longest digit run. -/
def takeDigits : List Char → List Char × List Char
  | [] => ([], [])
  | c :: cs =>
    if c.isDigit then
      let p := takeDigits cs
      (c :: p.1, p.2)
    else ([], c :: cs)

/-- Exponent part of a JSON number (optional). -/
def parseExpPart (acc : List Char) (cs : List Char) : Option (String × List Char) :=
  match cs with
  | [] => some (String.mk acc, [])
  | c :: r =>
    if c = 'e' ∨ c = 'E' then
      let sp : List Char × List Char :=
        match r with
        | s :: r2 => if s = '+' ∨ s = '-' then ([s], r2) else ([], s :: r2)
        | [] => ([], [])
      match sp.2 with
      | d :: _ =>
        if d.isDigit then
          let ds := takeDigits sp.2
          some (String.mk (acc ++ c :: sp.1 ++ ds.1), ds.2)
        else none
      | [] => none
    else some (String.mk acc, c :: r)

/-- Fraction part of a JSON number (optional), then exponent. -/
def parseFracPart (acc : List Char) (cs : List Char) : Option (String × List Char) :=
  match cs with
  | [] => some (String.mk acc, [])
  | c :: r =>
    if c = '.' then
      match r with
      | d :: _ =>
        if d.isDigit then
          let ds := takeDigits r
          parseExpPart (acc ++ c :: ds.1) ds.2
        else none
      | [] => none
    else parseExpPart acc (c :: r)

/-- A JSON number lexeme: optional minus, integer part with the
leading-zero restriction, optional fraction and exponent. -/
def parseNumLex (cs : List Char) : Option (String × List Char) :=
  let sp : List Char × List Char :=
    match cs with
    | c :: r => if c = '-' then ([c], r) else ([], c :: r)
    | [] => ([], [])
  match sp.2 with
  | [] => none
  | c :: r =>
    if c = '0' then parseFracPart (sp.1 ++ [c]) r
    else if c.isDigit then
      let ds := takeDigits r
      parseFracPart (sp.1 ++ c :: ds.1) ds.2
    else none

/-- Mode of the single fuel-indexed parsing function: a value, the member
list of an object (after at least one member is known to follow), or the
element list of an array. -/
inductive PMode where
  | val : PMode
  | members : List (String × Json) → PMode
  | elements : List Json → PMode

/-- One recursive JSON parser over all three modes, structural on fuel;
every recursive call is on a strictly shorter suffix, so fuel
`length + 1` always suffices. -/
def parseStep : Nat → PMode → List Char → Option (Json × List Char)
  | 0, _, _ => none
  | fuel + 1, PMode.val, cs =>
    match skipWs cs with
    | [] => none
    | c :: rest =>
      if c = lbraceC then
        match skipWs rest with
        | [] => none
        | d :: rest2 =>
          if d = rbraceC then some (Json.obj [], rest2)
          else parseStep fuel (PMode.members []) (d :: rest2)
      else if c = '[' then
        match skipWs rest with
        | [] => none
        | d :: rest2 =>
          if d = ']' then some (Json.arr [], rest2)
          else parseStep fuel (PMode.elements []) (d :: rest2)
      else if c = quoteC then
        match parseStrBody (rest.length + 1) rest [] with
        | some (s, r) => some (Json.str s, r)
        | none => none
      else if c = 't' then
        match stripLit ['r', 'u', 'e'] rest with
        | some r => some (Json.bool true, r)
        | none => none
      else if c = 'f' then
        match stripLit ['a', 'l', 's', 'e'] rest with
        | some r => some (Json.bool false, r)
        | none => none
      else if c = 'n' then
        match stripLit ['u', 'l', 'l'] rest with
        | some r => some (Json.null, r)
        | none => none
      else if c = '-' ∨ c.isDigit then
        match parseNumLex (c :: rest) with
        | some (s, r) => some (Json.num s, r)
        | none => none
      else none
  | fuel + 1, PMode.members acc, cs =>
    match skipWs cs with
    | [] => none
    | c :: rest =>
      if c = quoteC then
        match parseStrBody (rest.length + 1) rest [] with
        | some (k, r) =>
          match skipWs r with
          | [] => none
          | c2 :: r2 =>
            if c2 = ':' then
              match parseStep fuel PMode.val r2 with
              | some (v, r3) =>
                match skipWs r3 with
                | [] => none
                | c3 :: r4 =>
                  if c3 = ',' then parseStep fuel (PMode.members (acc ++ [(k, v)])) r4
                  else if c3 = rbraceC then some (Json.obj (acc ++ [(k, v)]), r4)
                  else none
              | none => none
            else none
        | none => none
      else none
  | fuel + 1, PMode.elements acc, cs =>
    match parseStep fuel PMode.val cs with
    | some (v, r) =>
      match skipWs r with
      | [] => none
      | c :: r2 =>
        if c = ',' then parseStep fuel (PMode.elements (acc ++ [v])) r2
        else if c = ']' then some (Json.arr (acc ++ [v]), r2)
        else none
    | none => none

/-- `json.Unmarshal`'s syntactic phase: one JSON value followed only by
whitespace. -/
def parseJsonTop (s : String) : Option Json :=
  let cs := s.toList
  match parseStep (cs.length + 1) PMode.val cs with
  | some (j, rest) => if skipWs rest = [] then some j else none
  | none => none

/-- Case folding for JSON object keys, as Go's case-insensitive field
matching uses it: ASCII folding, plus the two non-ASCII characters whose
simple case fold meets a letter of the tags `status`/`token` (long s
U+017F folds with `s`, the Kelvin sign U+212A folds with `k`). -/
def foldKeyChar (c : Char) : Char :=
  if c = Char.ofNat 383 then 's'
  else if c = Char.ofNat 8490 then 'k'
  else c.toLower

/-- Key comparison as `encoding/json` matches object keys to struct
fields: equality up to simple case folding. -/
def eqFold (a b : String) : Bool :=
  a.toList.map foldKeyChar == b.toList.map foldKeyChar

/-- Sequential decoding of an inner `status` object into
`struct { Token string }`: members are processed in order, each key
matching `token` (case-insensitively) overwrites the current value, a
`null` leaves it unchanged, and a non-string value is a type error. -/
def decodeTokenInto : String → List (String × Json) → Option String
  | tok, [] => some tok
  | tok, (k, v) :: ms =>
    if eqFold k "token" then
      match v with
      | Json.null => decodeTokenInto tok ms
      | Json.str s => decodeTokenInto s ms
      | _ => none
    else decodeTokenInto tok ms

/-- Sequential decoding of the top-level object into
`struct { Status struct { Token string } }`: each key matching `status`
(case-insensitively) decodes its object value into the same nested
struct — merging, not resetting, as repeated assignment does — `null`
leaves it unchanged, and a non-object value is a type error. -/
def decodeStatusInto : String → List (String × Json) → Option String
  | tok, [] => some tok
  | tok, (k, v) :: ms =>
    if eqFold k "status" then
      match v with
      | Json.null => decodeStatusInto tok ms
      | Json.obj sms =>
        match decodeTokenInto tok sms with
        | some tok2 => decodeStatusInto tok2 ms
        | none => none
      | _ => none
    else decodeStatusInto tok ms

/-- Decoding a parsed value into `struct { Status struct { Token string } }`:
`null` leaves zero values, any other non-object top level is a type
error, and object members are decoded sequentially with Go's
case-insensitive field matching; missing fields stay `""`. -/
def decodeTokenRequest : Json → Option String
  | Json.null => some ""
  | Json.obj ms => decodeStatusInto "" ms
  | _ => none

/-- `json.Unmarshal([]byte(stdout), &tr)` followed by reading
`tr.Status.Token`: `none` when unmarshalling fails, otherwise the
extracted token (possibly `""`). -/
def unmarshalTokenRequest (s : String) : Option String :=
  match parseJsonTop s with
  | none => none
  | some j => decodeTokenRequest j

/-! ### Collaborators: logger, runner, external world -/

/-- A log sink: what the sink emits (as output lines) for one formatted
`Logf` message.  The no-op sink emits nothing. -/
def Logger := String → List String

def noopLogger : Logger := fun _ => []

/-- Modelled from the spec: the `slo` logging package is not part of the
sources here; per the spec, the logging sink is "an injectable, optional
interface accepting formatted line messages; a missing sink is a
guaranteed no-op, never an error".  `NewLogger` wraps an optional sink,
substituting the no-op sink for an absent one. -/
def NewLogger (l : Option Logger) : Logger := l.getD noopLogger

/-- A `CmdRunner`: the reply (stdout, error rendering) the runner gives
to its `k`-th invocation on a command descriptor. -/
def CmdRunner := Nat → GoCmd → String × Option String

/-- The external world a call runs against: the host environment and the
outcome of the `k`-th actually-executed process. -/
structure World where
  osEnviron : List String
  execOutcome : Nat → GoCmd → ExecBehavior

/-- `DefaultRunner{}` as a `CmdRunner`: each invocation goes through
`runCmd`; the wrapped error is surfaced by its rendered message. -/
def defaultRunner (w : World) : CmdRunner := fun k cmd =>
  let r := runCmd w.osEnviron (w.execOutcome k) cmd
  (r.1, r.2.map RunError.msg)

/-! ### Credential Poller (`ServiceAccountToken`) -/

/-- The raw TokenRequest body fed on stdin. -/
def tokenRequestBody : String :=
  "\x7b\"apiVersion\":\"authentication.k8s.io/v1\",\"kind\":\"TokenRequest\"\x7d"

/-- The `kubectl create --raw .../token -f -` command built by
`tryOnce`. -/
def tokenCmd (ns sa : String) : GoCmd where
  path := "kubectl"
  args := ["kubectl", "create", "--raw",
    "/api/v1/namespaces/" ++ ns ++ "/serviceaccounts/" ++ sa ++ "/token", "-f", "-"]
  dir := ""
  stdin := some tokenRequestBody
  env := []

/-- One credential attempt, given the runner's reply: wrap a runner
failure, otherwise unmarshal stdout and reject an empty token.  Returns
(token, error); exactly one side is meaningful.  (The textual detail of
the underlying json error inside the parse-failure message is abstracted;
no property depends on it.) -/
def tryOnce (ns sa : String) (reply : String × Option String) : String × Option String :=
  match reply with
  | (_, some e) =>
    ("", some ("token request failed (ns=" ++ ns ++ " sa=" ++ sa ++ "): " ++ e))
  | (stdout, none) =>
    match unmarshalTokenRequest stdout with
    | none => ("", some ("token response json parse failed (body=" ++ goQuote stdout ++ ")"))
    | some tok => if tok = "" then ("", some "token is empty") else (tok, none)

/-- The outcome of the `k`-th attempt (the `k`-th runner invocation). -/
def attemptResult (r : CmdRunner) (ns sa : String) (k : Nat) : String × Option String :=
  tryOnce ns sa (r k (tokenCmd ns sa))

/-- The caller's cancellation context: whether it is already done on
entry, its own error rendering, and, for each select in the retry loop,
whether the done signal fires before that select's tick. -/
structure Ctx where
  doneAtStart : Bool
  ctxErr : String
  doneBeforeTick : Nat → Bool

/-- The observable outcome of one `ServiceAccountToken` call: the
returned (token, error) pair, the number of runner invocations issued,
and the emitted log lines. -/
structure PollOut where
  token : String
  err : Option String
  calls : Nat
  log : List String
deriving DecidableEq, Repr

/-- The `select` loop of `ServiceAccountToken`: at its `sel`-th select,
either the done signal fires (return the last failure, or the context's
error if none — the latter is unreachable here since the loop is entered
only after a failure) or the tick fires and the next attempt runs.
Fuel-driven; `none` means the loop was still running after `fuel`
selects, which models the non-terminating executions. -/
def pollLoop (ctx : Ctx) (logger : Logger) (r : CmdRunner) (ns sa : String) :
    Option String → Nat → Nat → List String → Nat → Option PollOut
  | lastErr, sel, calls, log, 0 =>
    let _ := (lastErr, sel, calls, log)
    none
  | lastErr, sel, calls, log, fuel + 1 =>
    if ctx.doneBeforeTick sel then
      some { token := "", err := some (lastErr.getD ctx.ctxErr), calls := calls, log := log }
    else
      match attemptResult r ns sa calls with
      | (tok, none) => some { token := tok, err := none, calls := calls + 1, log := log }
      | (_, some e) =>
        pollLoop ctx logger r ns sa (some e) (sel + 1) (calls + 1)
          (log ++ logger ("token not ready yet: " ++ e)) fuel

/-- `ServiceAccountToken`: substitute the default collaborators for nil
ones, fail on an already-done context before any call, run the eager
first attempt, then the tick/cancel loop. -/
def serviceAccountToken (w : World) (logger? : Option Logger) (r? : Option CmdRunner)
    (ctx : Ctx) (ns sa : String) (fuel : Nat) : Option PollOut :=
  let logger := NewLogger logger?
  let r := r?.getD (defaultRunner w)
  if ctx.doneAtStart then
    some { token := "", err := some ctx.ctxErr, calls := 0, log := [] }
  else
    match attemptResult r ns sa 0 with
    | (tok, none) => some { token := tok, err := none, calls := 1, log := [] }
    | (_, some e) =>
      pollLoop ctx logger r ns sa (some e) 0 1 (logger ("token not ready yet: " ++ e)) fuel

/-! ### Declarative Apply (`ApplyClusterRoleBinding`) -/

/-- The fixed-schema ClusterRoleBinding manifest with the four values
substituted (in the source's `Sprintf` order: binding name, role name,
subject name, subject namespace). -/
def crbManifest (name clusterRole ns sa : String) : String :=
  "apiVersion: rbac.authorization.k8s.io/v1\n" ++
  "kind: ClusterRoleBinding\n" ++
  "metadata:\n" ++
  "  name: " ++ name ++ "\n" ++
  "roleRef:\n" ++
  "  apiGroup: rbac.authorization.k8s.io\n" ++
  "  kind: ClusterRole\n" ++
  "  name: " ++ clusterRole ++ "\n" ++
  "subjects:\n" ++
  "- kind: ServiceAccount\n" ++
  "  name: " ++ sa ++ "\n" ++
  "  namespace: " ++ ns ++ "\n"

/-- The `kubectl apply -f -` command with the manifest on stdin. -/
def applyCmd (manifest : String) : GoCmd where
  path := "kubectl"
  args := ["kubectl", "apply", "-f", "-"]
  dir := ""
  stdin := some manifest
  env := []

/-- `strings.TrimRight(s, "\n")`. -/
def trimRightNewlines (s : String) : String :=
  String.mk (s.toList.reverse.dropWhile (fun c => c = '\n')).reverse

/-- The observable outcome of one `ApplyClusterRoleBinding` call: the
returned error, the runner invocations issued, and the emitted log
lines. -/
structure ApplyOut where
  err : Option String
  issued : List GoCmd
  log : List String
deriving DecidableEq, Repr

/-- `ApplyClusterRoleBinding`: substitute defaults for nil collaborators,
log the stage line, build the manifest, submit it on stdin of one
`kubectl apply -f -` invocation, log non-empty trimmed stdout, and wrap
any runner failure with the stage-identifying message. -/
def applyClusterRoleBinding (w : World) (logger? : Option Logger) (r? : Option CmdRunner)
    (name clusterRole ns sa : String) : ApplyOut :=
  let logger := NewLogger logger?
  let r := r?.getD (defaultRunner w)
  let log0 := logger ("apply ClusterRoleBinding name=" ++ goQuote name ++ " role=" ++
    goQuote clusterRole ++ " sa=" ++ ns ++ "/" ++ sa)
  let cmd := applyCmd (crbManifest name clusterRole ns sa)
  let reply := r 0 cmd
  let log1 :=
    if trimSpace reply.1 ≠ "" then logger (trimRightNewlines (trimSpace reply.1)) else []
  match reply.2 with
  | some e =>
    { err := some ("kubectl apply clusterrolebinding failed: " ++ e), issued := [cmd],
      log := log0 ++ log1 }
  | none => { err := none, issued := [cmd], log := log0 ++ log1 }

/-! ### Claims about the Process Runner -/

/-- C4: for every Execution Request given to `DefaultRunner.Run`, if no
explicit environment list is supplied the executed command's environment
is the host process environment plus the fixed marker `GO111MODULE=on`;
if a caller-supplied environment list is present, the executed
environment is exactly that list with the marker appended, with no
pre-existing entry removed or duplicated. -/
theorem run_env_policy (osEnv : List String) (cmd : GoCmd) :
    (cmd.env = [] → (rebuildCmd osEnv cmd).env = osEnv ++ [envMarker]) ∧
    (cmd.env ≠ [] →
      (rebuildCmd osEnv cmd).env = cmd.env ++ [envMarker] ∧
      ∀ v, List.count v (rebuildCmd osEnv cmd).env =
        List.count v cmd.env + List.count v [envMarker]) := by
  constructor
  · intro h
    simp [rebuildCmd, h]
  · intro h
    have hne : ¬ cmd.env.length = 0 := by
      simpa [List.length_eq_zero] using h
    refine ⟨by simp [rebuildCmd, hne], fun v => ?_⟩
    simp [rebuildCmd, hne, List.count_append]

/-- Witness for C4 at concrete requests: an empty environment inherits
the host environment plus the marker; a non-empty one gets exactly the
marker appended. -/
theorem run_env_policy_check :
    (rebuildCmd ["HOST=1"]
      { path := "p", args := ["p"], dir := "", stdin := none, env := [] }).env =
      ["HOST=1", "GO111MODULE=on"] ∧
    (rebuildCmd ["HOST=1"]
      { path := "p", args := ["p"], dir := "", stdin := none, env := ["A=2", "B=3"] }).env =
      ["A=2", "B=3", "GO111MODULE=on"] :=
  ⟨(run_env_policy ["HOST=1"] _).1 rfl,
   ((run_env_policy ["HOST=1"] _).2 (by decide)).1⟩

/-- Unfolding equation of `runCmd` on a failing execution. -/
theorem runCmd_eq_fail (osEnv : List String) (world : GoCmd → ExecBehavior) (cmd : GoCmd)
    (e : String) (hf : (world (rebuildCmd osEnv cmd)).fail = some e) :
    runCmd osEnv world cmd = ((world (rebuildCmd osEnv cmd)).stdout,
      some { msg := goQuote (joinSpace (rebuildCmd osEnv cmd).args) ++ " failed: " ++
               trimSpace ((world (rebuildCmd osEnv cmd)).stderr ++ "\n" ++
                 (world (rebuildCmd osEnv cmd)).stdout) ++ ": " ++ e,
             cause := e }) := by
  simp only [runCmd, hf]

/-- Unfolding equation of `runCmd` on a succeeding execution. -/
theorem runCmd_eq_ok (osEnv : List String) (world : GoCmd → ExecBehavior) (cmd : GoCmd)
    (hf : (world (rebuildCmd osEnv cmd)).fail = none) :
    runCmd osEnv world cmd = ((world (rebuildCmd osEnv cmd)).stdout, none) := by
  simp only [runCmd, hf]

/-- A printable-ASCII character other than quote and backslash is
rendered by `%q` as itself. -/
theorem quoteCharGo_plain (ch : Char) (h1 : 32 ≤ ch.toNat) (h2 : ch.toNat ≤ 126)
    (h3 : ch ≠ quoteC) (h4 : ch ≠ backslashC) : quoteCharGo ch = [ch] := by
  unfold quoteCharGo
  rw [if_neg h3, if_neg h4,
    if_neg (fun h => absurd h1 (by rw [h]; decide)),
    if_neg (fun h => absurd h1 (by rw [h]; decide)),
    if_neg (fun h => absurd h1 (by rw [h]; decide)),
    if_neg (fun h => absurd h1 (by rw [h]; decide)),
    if_neg (fun h => absurd h1 (by rw [h]; decide)),
    if_neg (fun h => absurd h1 (by rw [h]; decide)),
    if_neg (fun h => absurd h1 (by rw [h]; decide)),
    if_neg (by omega)]

/-- A list of such characters is rendered verbatim inside the quotes. -/
theorem quoteBody_plain (l : List Char)
    (h : ∀ ch ∈ l, 32 ≤ ch.toNat ∧ ch.toNat ≤ 126 ∧ ch ≠ quoteC ∧ ch ≠ backslashC) :
    quoteBody l = l := by
  induction l with
  | nil => rfl
  | cons c cs ih =>
    obtain ⟨h1, h2, h3, h4⟩ := h c (by simp)
    simp only [quoteBody]
    rw [quoteCharGo_plain c h1 h2 h3 h4, ih (fun ch hch => h ch (by simp [hch]))]
    rfl

/-- A string of such characters is rendered by `%q` as itself between
two quotes. -/
theorem goQuote_plain (s : String)
    (h : ∀ ch ∈ s.toList, 32 ≤ ch.toNat ∧ ch.toNat ≤ 126 ∧ ch ≠ quoteC ∧ ch ≠ backslashC) :
    goQuote s = "\"" ++ s ++ "\"" := by
  obtain ⟨l⟩ := s
  simp only [goQuote]
  rw [show (String.mk l).toList = l from rfl, quoteBody_plain l h]
  rfl

theorem isPrefixL_append (n q : List Char) : isPrefixL n (n ++ q) = true := by
  induction n with
  | nil => rfl
  | cons a as ih => simp [isPrefixL, ih]

theorem containsSubL_pref (n h : List Char) (hp : isPrefixL n h = true) :
    containsSubL n h = true := by
  cases h with
  | nil => simpa [containsSubL] using hp
  | cons c cs => simp [containsSubL, hp]

theorem containsSubL_append (p n q : List Char) :
    containsSubL n (p ++ (n ++ q)) = true := by
  induction p with
  | nil => exact containsSubL_pref n (n ++ q) (isPrefixL_append n q)
  | cons c cs ih => simp [containsSubL, ih]

/-- A string written as `p ++ n ++ q` passes the substring test for
`n`. -/
theorem containsSubS_of_eq (h p n q : String) (heq : h = p ++ n ++ q) :
    containsSubL n.data h.data = true := by
  subst heq
  obtain ⟨lp⟩ := p
  obtain ⟨ln⟩ := n
  obtain ⟨lq⟩ := q
  have hassoc : (String.mk lp ++ String.mk ln ++ String.mk lq).data = lp ++ (ln ++ lq) :=
    List.append_assoc lp ln lq
  rw [hassoc]
  exact containsSubL_append lp ln lq

/-- C5 counterexample: `%q` escapes a double quote occurring in an
argument, so the rendered message of this failing execution — whose
command line is `p a"b` — contains the escaped rendering but no
contiguous occurrence of the raw command line. -/
theorem run_failure_msg_not_verbatim :
    ∃ er : RunError,
      runCmd [] (fun _ => { stdout := "", stderr := "", fail := some "exit status 1" })
        { path := "p", args := ["p", "a\"b"], dir := "", stdin := none, env := [] } =
        ("", some er) ∧
      ¬ ∃ p q : String, er.msg = p ++ joinSpace (rebuildCmd []
        { path := "p", args := ["p", "a\"b"], dir := "", stdin := none, env := [] }).args ++ q := by
  refine ⟨_, rfl, ?_⟩
  rintro ⟨p, q, hpq⟩
  exact absurd (containsSubS_of_eq _ p _ q hpq) (by decide)

/-- C5 (amended): every failing execution returns the partial stdout
together with an error wrapping the (non-nil) underlying failure, whose
message contains the `%q`-quoted rendering of the full invoked command
line — hence the command line itself whenever it consists of printable
ASCII free of quote and backslash — and the whitespace-trimmed
concatenation of stderr followed by stdout. -/
theorem run_failure_spec (osEnv : List String) (world : GoCmd → ExecBehavior) (cmd : GoCmd)
    (c : String) (hfail : (world (rebuildCmd osEnv cmd)).fail = some c) :
    ∃ er : RunError,
      runCmd osEnv world cmd = ((world (rebuildCmd osEnv cmd)).stdout, some er) ∧
      er.cause = c ∧
      (∃ p q, er.msg = p ++ goQuote (joinSpace (rebuildCmd osEnv cmd).args) ++ q) ∧
      ((∀ ch ∈ (joinSpace (rebuildCmd osEnv cmd).args).toList,
          32 ≤ ch.toNat ∧ ch.toNat ≤ 126 ∧ ch ≠ quoteC ∧ ch ≠ backslashC) →
        ∃ p q, er.msg = p ++ joinSpace (rebuildCmd osEnv cmd).args ++ q) ∧
      (∃ p q, er.msg =
        p ++ trimSpace ((world (rebuildCmd osEnv cmd)).stderr ++ "\n" ++
          (world (rebuildCmd osEnv cmd)).stdout) ++ q) := by
  refine ⟨_, runCmd_eq_fail osEnv world cmd c hfail, rfl, ?_, ?_, ?_⟩
  · exact ⟨"", " failed: " ++
      trimSpace ((world (rebuildCmd osEnv cmd)).stderr ++ "\n" ++
        (world (rebuildCmd osEnv cmd)).stdout) ++ ": " ++ c, by
      simp [String.append_assoc]⟩
  · intro hplain
    refine ⟨"\"", "\"" ++ " failed: " ++
      trimSpace ((world (rebuildCmd osEnv cmd)).stderr ++ "\n" ++
        (world (rebuildCmd osEnv cmd)).stdout) ++ ": " ++ c, ?_⟩
    show goQuote (joinSpace (rebuildCmd osEnv cmd).args) ++ " failed: " ++
      trimSpace ((world (rebuildCmd osEnv cmd)).stderr ++ "\n" ++
        (world (rebuildCmd osEnv cmd)).stdout) ++ ": " ++ c = _
    rw [goQuote_plain _ hplain]
    simp [String.append_assoc]
  · exact ⟨goQuote (joinSpace (rebuildCmd osEnv cmd).args) ++ " failed: ", ": " ++ c, by
      simp [String.append_assoc]⟩

/-- Witness for C5 at a concrete failing execution whose command line is
escape-free printable ASCII. -/
theorem run_failure_check :
    ∃ er : RunError,
      runCmd [] (fun _ => { stdout := "partial", stderr := "bad", fail := some "exit status 1" })
        { path := "kubectl", args := ["kubectl", "get"], dir := "", stdin := none, env := [] } =
        ("partial", some er) ∧
      er.cause = "exit status 1" ∧
      (∃ p q, er.msg = p ++ goQuote (joinSpace (rebuildCmd []
        { path := "kubectl", args := ["kubectl", "get"], dir := "", stdin := none,
          env := [] }).args) ++ q) ∧
      (∃ p q, er.msg = p ++ joinSpace (rebuildCmd []
        { path := "kubectl", args := ["kubectl", "get"], dir := "", stdin := none,
          env := [] }).args ++ q) ∧
      (∃ p q, er.msg = p ++ trimSpace ("bad" ++ "\n" ++ "partial") ++ q) := by
  obtain ⟨er, h1, h2, h3, h4, h5⟩ := run_failure_spec []
    (fun _ => { stdout := "partial", stderr := "bad", fail := some "exit status 1" })
    { path := "kubectl", args := ["kubectl", "get"], dir := "", stdin := none, env := [] }
    "exit status 1" rfl
  exact ⟨er, h1, h2, h3, h4 (by decide), h5⟩

/-- C6: an Execution Result never mixes diagnostics into a success — a
successful run returns exactly the captured stdout with no error,
independent of what stderr captured — and a failing result always
carries the underlying cause of the failure. -/
theorem run_result_invariant (osEnv : List String) (world : GoCmd → ExecBehavior) (cmd : GoCmd) :
    ((runCmd osEnv world cmd).2 = none →
      runCmd osEnv world cmd = ((world (rebuildCmd osEnv cmd)).stdout, none) ∧
      (world (rebuildCmd osEnv cmd)).fail = none) ∧
    (∀ er, (runCmd osEnv world cmd).2 = some er →
      (world (rebuildCmd osEnv cmd)).fail = some er.cause) := by
  cases hf : (world (rebuildCmd osEnv cmd)).fail with
  | none =>
    constructor
    · intro _
      exact ⟨by simp [runCmd, hf], rfl⟩
    · intro er her
      simp [runCmd, hf] at her
  | some e =>
    constructor
    · intro h
      simp [runCmd, hf] at h
    · intro er her
      rw [runCmd_eq_fail osEnv world cmd e hf] at her
      have h2 : ({ msg := goQuote (joinSpace (rebuildCmd osEnv cmd).args) ++ " failed: " ++
                          trimSpace ((world (rebuildCmd osEnv cmd)).stderr ++ "\n" ++
                            (world (rebuildCmd osEnv cmd)).stdout) ++ ": " ++ e,
                   cause := e } : RunError) = er := by
        injection her
      subst h2
      rfl

/-- Witness for C6 at a concrete succeeding and a concrete failing
execution. -/
theorem run_result_invariant_check :
    (runCmd [] (fun _ => { stdout := "ok", stderr := "noise", fail := none })
      { path := "p", args := ["p"], dir := "", stdin := none, env := [] } = ("ok", none) ∧
      ({ stdout := "ok", stderr := "noise", fail := none } : ExecBehavior).fail = none) ∧
    (({ stdout := "", stderr := "", fail := some "boom" } : ExecBehavior).fail = some
      (({ msg := "\"p\" failed: : boom", cause := "boom" } : RunError).cause)) :=
  ⟨(run_result_invariant [] (fun _ => { stdout := "ok", stderr := "noise", fail := none })
      { path := "p", args := ["p"], dir := "", stdin := none, env := [] }).1 rfl,
   (run_result_invariant [] (fun _ => { stdout := "", stderr := "", fail := some "boom" })
      { path := "p", args := ["p"], dir := "", stdin := none, env := [] }).2
      { msg := "\"p\" failed: : boom", cause := "boom" } rfl⟩

/-- C7 counterexample: the executed command is not literally field-equal
to the caller's descriptor — the executed environment is the caller's
list with the marker appended, so "same environment list" fails on a
request whose environment is `["A=1"]`. -/
theorem rebuild_not_literally_same :
    (rebuildCmd [] { path := "kubectl", args := ["kubectl", "get"], dir := "", stdin := some "", env := ["A=1"] }).env ≠ ["A=1"] ∧
    rebuildCmd [] { path := "kubectl", args := ["kubectl", "get"], dir := "", stdin := some "", env := ["A=1"] } ≠
      specExecutedCmd { path := "kubectl", args := ["kubectl", "get"], dir := "", stdin := some "", env := ["A=1"] } := by
  decide

/-- C7 (amended): the context-bound command the Runner actually executes
agrees with the caller's descriptor on path (with the argv-head fallback),
argument list, working directory and input stream (a zero-byte stream
preserved), and its environment is the caller's list — or, when absent,
the host environment — with the fixed marker appended. -/
theorem rebuild_matches_spec (osEnv : List String) (cmd : GoCmd) :
    rebuildCmd osEnv cmd = specExecutedCmdEnvPolicy osEnv cmd := by
  obtain ⟨p, a, d, s, e⟩ := cmd
  simp only [rebuildCmd, specExecutedCmdEnvPolicy, specExecutedCmd]
  cases a with
  | nil =>
    cases e with
    | nil => by_cases hp : p = "" <;> simp [hp]
    | cons e0 es => by_cases hp : p = "" <;> simp [hp]
  | cons a0 t =>
    cases e with
    | nil =>
      cases t with
      | nil => by_cases hp : p = "" <;> simp [hp]
      | cons t0 ts => by_cases hp : p = "" <;> simp [hp]
    | cons e0 es =>
      cases t with
      | nil => by_cases hp : p = "" <;> simp [hp]
      | cons t0 ts => by_cases hp : p = "" <;> simp [hp]

/-! ### Claims about Declarative Apply and the public entry points -/

/-- C8: `ApplyClusterRoleBinding` builds the fixed-schema manifest with
the four values substituted, submits it on the input stream of exactly
one `kubectl apply -f -` invocation (no file path, no retry), returns no
error exactly when the Runner succeeds, and wraps a Runner failure with
the stage-identifying message. -/
theorem applyCRB_spec (w : World) (logger? : Option Logger) (r : CmdRunner)
    (name clusterRole ns sa : String) :
    (applyClusterRoleBinding w logger? (some r) name clusterRole ns sa).issued =
      [applyCmd (crbManifest name clusterRole ns sa)] ∧
    (applyCmd (crbManifest name clusterRole ns sa)).args = ["kubectl", "apply", "-f", "-"] ∧
    (applyCmd (crbManifest name clusterRole ns sa)).stdin =
      some (crbManifest name clusterRole ns sa) ∧
    ((applyClusterRoleBinding w logger? (some r) name clusterRole ns sa).err = none ↔
      (r 0 (applyCmd (crbManifest name clusterRole ns sa))).2 = none) ∧
    (∀ e, (r 0 (applyCmd (crbManifest name clusterRole ns sa))).2 = some e →
      (applyClusterRoleBinding w logger? (some r) name clusterRole ns sa).err =
        some ("kubectl apply clusterrolebinding failed: " ++ e)) := by
  cases hr : (r 0 (applyCmd (crbManifest name clusterRole ns sa))).2 with
  | none =>
    refine ⟨?_, rfl, rfl, ?_, ?_⟩
    · simp [applyClusterRoleBinding, hr]
    · simp [applyClusterRoleBinding, hr]
    · intro e he
      exact absurd he (by simp)
  | some e0 =>
    refine ⟨?_, rfl, rfl, ?_, ?_⟩
    · simp [applyClusterRoleBinding, hr]
    · simp [applyClusterRoleBinding, hr]
    · intro e he
      have : e0 = e := by injection he
      subst this
      simp [applyClusterRoleBinding, hr]

/-- Witness for C8 at a concrete failing Runner. -/
theorem applyCRB_check :
    (applyClusterRoleBinding { osEnviron := [], execOutcome := fun _ _ => { stdout := "", stderr := "", fail := none } } none (some (fun _ _ => ("", some "boom"))) "crb1" "admin" "default" "sa1").issued =
      [applyCmd (crbManifest "crb1" "admin" "default" "sa1")] ∧
    (applyClusterRoleBinding { osEnviron := [], execOutcome := fun _ _ => { stdout := "", stderr := "", fail := none } } none (some (fun _ _ => ("", some "boom"))) "crb1" "admin" "default" "sa1").err =
      some ("kubectl apply clusterrolebinding failed: " ++ "boom") :=
  ⟨(applyCRB_spec { osEnviron := [], execOutcome := fun _ _ => { stdout := "", stderr := "", fail := none } } none (fun _ _ => ("", some "boom")) "crb1" "admin" "default" "sa1").1,
   (applyCRB_spec { osEnviron := [], execOutcome := fun _ _ => { stdout := "", stderr := "", fail := none } } none (fun _ _ => ("", some "boom")) "crb1" "admin" "default" "sa1").2.2.2.2 "boom" rfl⟩

/-- C10: both public entry points behave, on a nil logger and a nil
runner, exactly as they do when the no-op logger and `DefaultRunner` are
supplied explicitly (nil collaborators are replaced before use, so the
call cannot fail on them). -/
theorem nil_collaborators_like_defaults (w : World) (ctx : Ctx)
    (ns sa name clusterRole : String) (fuel : Nat) :
    serviceAccountToken w none none ctx ns sa fuel =
      serviceAccountToken w (some noopLogger) (some (defaultRunner w)) ctx ns sa fuel ∧
    applyClusterRoleBinding w none none name clusterRole ns sa =
      applyClusterRoleBinding w (some noopLogger) (some (defaultRunner w)) name clusterRole ns sa :=
  ⟨rfl, rfl⟩

/-! ### Claims about the Credential Poller -/

/-- C3: for every string the Runner hands back to an attempt, if
unmarshalling exposes a non-empty `status.token` string the attempt
succeeds with exactly that token; if unmarshalling fails or the
extracted token is empty, the attempt fails, never succeeds. -/
theorem tryOnce_token_extraction (ns sa s : String) :
    (∀ t, unmarshalTokenRequest s = some t → t ≠ "" → tryOnce ns sa (s, none) = (t, none)) ∧
    (unmarshalTokenRequest s = none ∨ unmarshalTokenRequest s = some "" →
      (tryOnce ns sa (s, none)).1 = "" ∧ ((tryOnce ns sa (s, none)).2).isSome = true) := by
  constructor
  · intro t h ht
    simp [tryOnce, h, ht]
  · rintro (h | h) <;> simp [tryOnce, h]

/-- Witness for C3 at the spec's concrete responses: a well-formed
response yields its token — also through case-variant keys, which
`encoding/json` matches case-insensitively — while an empty-token
response and a malformed response both fail. -/
theorem tryOnce_token_extraction_check :
    tryOnce "default" "sa1" ("\x7b\"status\":\x7b\"token\":\"abc123\"\x7d\x7d", none) = ("abc123", none) ∧
    tryOnce "default" "sa1" ("\x7b\"Status\":\x7b\"token\":\"abc123\"\x7d\x7d", none) = ("abc123", none) ∧
    ((tryOnce "default" "sa1" ("\x7b\"status\":\x7b\"token\":\"\"\x7d\x7d", none)).1 = "" ∧
      ((tryOnce "default" "sa1" ("\x7b\"status\":\x7b\"token\":\"\"\x7d\x7d", none)).2).isSome = true) ∧
    ((tryOnce "default" "sa1" ("oops", none)).1 = "" ∧
      ((tryOnce "default" "sa1" ("oops", none)).2).isSome = true) :=
  ⟨(tryOnce_token_extraction "default" "sa1" "\x7b\"status\":\x7b\"token\":\"abc123\"\x7d\x7d").1 "abc123" rfl (by decide),
   (tryOnce_token_extraction "default" "sa1" "\x7b\"Status\":\x7b\"token\":\"abc123\"\x7d\x7d").1 "abc123" rfl (by decide),
   (tryOnce_token_extraction "default" "sa1" "\x7b\"status\":\x7b\"token\":\"\"\x7d\x7d").2 (Or.inr rfl),
   (tryOnce_token_extraction "default" "sa1" "oops").2 (Or.inl rfl)⟩

/-- Every attempt outcome is either a failure carrying an empty token or
a success carrying a non-empty token. -/
theorem tryOnce_cases (ns sa : String) (reply : String × Option String) :
    (∃ e, tryOnce ns sa reply = ("", some e)) ∨
    (∃ t, t ≠ "" ∧ tryOnce ns sa reply = (t, none)) := by
  obtain ⟨out, oe⟩ := reply
  cases oe with
  | some e => exact Or.inl ⟨_, rfl⟩
  | none =>
    cases h : unmarshalTokenRequest out with
    | none =>
      exact Or.inl ⟨"token response json parse failed (body=" ++ goQuote out ++ ")",
        by simp [tryOnce, h]⟩
    | some tok =>
      by_cases ht : tok = ""
      · exact Or.inl ⟨"token is empty", by simp [tryOnce, h, ht]⟩
      · exact Or.inr ⟨tok, ht, by simp [tryOnce, h, ht]⟩

/-- Behaviour of the retry loop when the done signal fires at its `i`-th
select while every attempt up to then fails: the loop stops after
`calls + i` total attempts and surfaces the most recent failure (or, at
`i = 0`, the failure it entered the loop with). -/
theorem pollLoop_done (ctx : Ctx) (logger : Logger) (r : CmdRunner) (ns sa : String) :
    ∀ (i sel calls : Nat) (le : Option String) (log : List String) (fuel : Nat),
      i + 1 ≤ fuel →
      (∀ j, j < i → ctx.doneBeforeTick (sel + j) = false) →
      (∀ j, j < i → ((attemptResult r ns sa (calls + j)).2).isSome = true) →
      ctx.doneBeforeTick (sel + i) = true →
      ∃ out, pollLoop ctx logger r ns sa le sel calls log fuel = some out ∧
        out.token = "" ∧ out.calls = calls + i ∧
        out.err = (if i = 0 then some (le.getD ctx.ctxErr)
          else (attemptResult r ns sa (calls + (i - 1))).2) := by
  intro i
  induction i with
  | zero =>
    intro sel calls le log fuel hfuel _ _ hdone
    obtain ⟨f, rfl⟩ : ∃ f, fuel = f + 1 := ⟨fuel - 1, by omega⟩
    rw [Nat.add_zero] at hdone
    exact ⟨{ token := "", err := some (le.getD ctx.ctxErr), calls := calls, log := log },
      by simp [pollLoop, hdone], rfl, rfl, rfl⟩
  | succ i ih =>
    intro sel calls le log fuel hfuel hticks hfails hdone
    obtain ⟨f, rfl⟩ : ∃ f, fuel = f + 1 := ⟨fuel - 1, by omega⟩
    have hsel0 : ctx.doneBeforeTick sel = false := by
      have := hticks 0 (by omega)
      rwa [Nat.add_zero] at this
    have hfst : ((attemptResult r ns sa calls).2).isSome = true := by
      have := hfails 0 (by omega)
      rwa [Nat.add_zero] at this
    cases ha : attemptResult r ns sa calls with
    | mk tok oe =>
      cases oe with
      | none => rw [ha] at hfst; simp at hfst
      | some e =>
        have hticks' : ∀ j, j < i → ctx.doneBeforeTick (sel + 1 + j) = false := by
          intro j hj
          have h := hticks (j + 1) (by omega)
          rwa [show sel + (j + 1) = sel + 1 + j by omega] at h
        have hfails' : ∀ j, j < i → ((attemptResult r ns sa (calls + 1 + j)).2).isSome = true := by
          intro j hj
          have h := hfails (j + 1) (by omega)
          rwa [show calls + (j + 1) = calls + 1 + j by omega] at h
        have hdone' : ctx.doneBeforeTick (sel + 1 + i) = true := by
          rwa [show sel + (i + 1) = sel + 1 + i by omega] at hdone
        obtain ⟨out, heq, htok, hcalls, herr⟩ :=
          ih (sel + 1) (calls + 1) (some e) (log ++ logger ("token not ready yet: " ++ e)) f
            (by omega) hticks' hfails' hdone'
        refine ⟨out, ?_, htok, by omega, ?_⟩
        · rw [show pollLoop ctx logger r ns sa le sel calls log (f + 1) =
              pollLoop ctx logger r ns sa (some e) (sel + 1) (calls + 1)
                (log ++ logger ("token not ready yet: " ++ e)) f by
            simp [pollLoop, hsel0, ha]]
          exact heq
        · rw [herr]
          cases i with
          | zero => simpa using ha.symm ▸ rfl
          | succ i' =>
            rw [if_neg (by omega), if_neg (by omega),
              show calls + 1 + (i' + 1 - 1) = calls + (i' + 1 + 1 - 1) by omega]

/-- Behaviour of the retry loop when attempts `calls .. calls+n-1` fail,
no done signal fires through select `n`, and attempt `calls+n` succeeds:
the loop returns that token after `calls + n + 1` total attempts. -/
theorem pollLoop_success (ctx : Ctx) (logger : Logger) (r : CmdRunner) (ns sa tok : String) :
    ∀ (n sel calls : Nat) (le : Option String) (log : List String) (fuel : Nat),
      n + 1 ≤ fuel →
      (∀ j, j ≤ n → ctx.doneBeforeTick (sel + j) = false) →
      (∀ j, j < n → ((attemptResult r ns sa (calls + j)).2).isSome = true) →
      attemptResult r ns sa (calls + n) = (tok, none) →
      ∃ out, pollLoop ctx logger r ns sa le sel calls log fuel = some out ∧
        out.token = tok ∧ out.err = none ∧ out.calls = calls + n + 1 := by
  intro n
  induction n with
  | zero =>
    intro sel calls le log fuel hfuel hticks _ hsucc
    obtain ⟨f, rfl⟩ : ∃ f, fuel = f + 1 := ⟨fuel - 1, by omega⟩
    have hsel0 : ctx.doneBeforeTick sel = false := by
      have := hticks 0 (by omega)
      rwa [Nat.add_zero] at this
    rw [Nat.add_zero] at hsucc
    exact ⟨{ token := tok, err := none, calls := calls + 1, log := log },
      by simp [pollLoop, hsel0, hsucc], rfl, rfl, rfl⟩
  | succ n ih =>
    intro sel calls le log fuel hfuel hticks hfails hsucc
    obtain ⟨f, rfl⟩ : ∃ f, fuel = f + 1 := ⟨fuel - 1, by omega⟩
    have hsel0 : ctx.doneBeforeTick sel = false := by
      have := hticks 0 (by omega)
      rwa [Nat.add_zero] at this
    have hfst : ((attemptResult r ns sa calls).2).isSome = true := by
      have := hfails 0 (by omega)
      rwa [Nat.add_zero] at this
    cases ha : attemptResult r ns sa calls with
    | mk tok0 oe =>
      cases oe with
      | none => rw [ha] at hfst; simp at hfst
      | some e =>
        have hticks' : ∀ j, j ≤ n → ctx.doneBeforeTick (sel + 1 + j) = false := by
          intro j hj
          have h := hticks (j + 1) (by omega)
          rwa [show sel + (j + 1) = sel + 1 + j by omega] at h
        have hfails' : ∀ j, j < n → ((attemptResult r ns sa (calls + 1 + j)).2).isSome = true := by
          intro j hj
          have h := hfails (j + 1) (by omega)
          rwa [show calls + (j + 1) = calls + 1 + j by omega] at h
        have hsucc' : attemptResult r ns sa (calls + 1 + n) = (tok, none) := by
          rwa [show calls + (n + 1) = calls + 1 + n by omega] at hsucc
        obtain ⟨out, heq, htok, herr, hcalls⟩ :=
          ih (sel + 1) (calls + 1) (some e) (log ++ logger ("token not ready yet: " ++ e)) f
            (by omega) hticks' hfails' hsucc'
        refine ⟨out, ?_, htok, herr, by omega⟩
        rw [show pollLoop ctx logger r ns sa le sel calls log (f + 1) =
            pollLoop ctx logger r ns sa (some e) (sel + 1) (calls + 1)
              (log ++ logger ("token not ready yet: " ++ e)) f by
          simp [pollLoop, hsel0, ha]]
        exact heq

/-- C1: if the context is already done before the first attempt, the
poller fails immediately with the context's error and issues zero runner
calls; and if the done signal fires at the `i`-th select after attempts
`0..i` all failed, it returns the failure of the most recent attempt
after exactly `i + 1` runner calls. -/
theorem serviceAccountToken_cancel_spec (w : World) (logger? : Option Logger) (r : CmdRunner)
    (ctx : Ctx) (ns sa : String) (i fuel : Nat) (hfuel : i + 1 ≤ fuel) :
    (ctx.doneAtStart = true →
      serviceAccountToken w logger? (some r) ctx ns sa fuel =
        some { token := "", err := some ctx.ctxErr, calls := 0, log := [] }) ∧
    (ctx.doneAtStart = false →
      (∀ k, k ≤ i → ((attemptResult r ns sa k).2).isSome = true) →
      (∀ j, j < i → ctx.doneBeforeTick j = false) →
      ctx.doneBeforeTick i = true →
      ∃ out, serviceAccountToken w logger? (some r) ctx ns sa fuel = some out ∧
        out.token = "" ∧ out.err = (attemptResult r ns sa i).2 ∧ out.calls = i + 1) := by
  constructor
  · intro hdone
    simp [serviceAccountToken, hdone]
  · intro hdone0 hfail hticks hdone
    have h0 : ((attemptResult r ns sa 0).2).isSome = true := hfail 0 (by omega)
    cases ha : attemptResult r ns sa 0 with
    | mk tok oe =>
      cases oe with
      | none => rw [ha] at h0; simp at h0
      | some e0 =>
        have hticks' : ∀ j, j < i → ctx.doneBeforeTick (0 + j) = false := by
          intro j hj
          rw [Nat.zero_add]
          exact hticks j hj
        have hfails' : ∀ j, j < i → ((attemptResult r ns sa (1 + j)).2).isSome = true := by
          intro j hj
          have h := hfail (j + 1) (by omega)
          rwa [show j + 1 = 1 + j by omega] at h
        have hdone' : ctx.doneBeforeTick (0 + i) = true := by rwa [Nat.zero_add]
        obtain ⟨out, heq, htok, hcalls, herr⟩ :=
          pollLoop_done ctx (NewLogger logger?) r ns sa i 0 1 (some e0)
            ((NewLogger logger?) ("token not ready yet: " ++ e0)) fuel hfuel
            hticks' hfails' hdone'
        refine ⟨out, ?_, htok, ?_, by omega⟩
        · rw [show serviceAccountToken w logger? (some r) ctx ns sa fuel =
              pollLoop ctx (NewLogger logger?) r ns sa (some e0) 0 1
                ((NewLogger logger?) ("token not ready yet: " ++ e0)) fuel by
            simp [serviceAccountToken, hdone0, ha]]
          exact heq
        · rw [herr]
          cases i with
          | zero => rw [if_pos rfl, ha]; rfl
          | succ i' => rw [if_neg (by omega), show 1 + (i' + 1 - 1) = i' + 1 by omega]

/-- Witness for C1: with an always-failing runner and a context whose
done signal fires at the first select, the poller returns the first
attempt's failure after exactly one runner call. -/
theorem serviceAccountToken_cancel_check :
    ∃ out,
      serviceAccountToken { osEnviron := [], execOutcome := fun _ _ => { stdout := "", stderr := "", fail := none } } none (some (fun _ _ => ("", some "boom"))) { doneAtStart := false, ctxErr := "context canceled", doneBeforeTick := fun _ => true } "default" "sa1" 1 = some out ∧
      out.token = "" ∧
      out.err = (attemptResult (fun _ _ => ("", some "boom")) "default" "sa1" 0).2 ∧
      out.calls = 0 + 1 :=
  (serviceAccountToken_cancel_spec
    { osEnviron := [], execOutcome := fun _ _ => { stdout := "", stderr := "", fail := none } }
    none (fun _ _ => ("", some "boom"))
    { doneAtStart := false, ctxErr := "context canceled", doneBeforeTick := fun _ => true }
    "default" "sa1" 0 1 (by omega)).2 rfl
    (fun k hk => by
      have hk0 : k = 0 := Nat.le_zero.mp hk
      rw [hk0]
      rfl)
    (fun j hj => absurd hj (Nat.not_lt_zero j))
    rfl

/-- C2: the first attempt is issued eagerly with no prior timer wait,
and whenever the first `N` attempts fail and attempt `N` succeeds before
the context is done, the poller returns that attempt's token after
exactly `N + 1` runner calls (for `N = 0` this needs no tick at all). -/
theorem serviceAccountToken_success_spec (w : World) (logger? : Option Logger) (r : CmdRunner)
    (ctx : Ctx) (ns sa tok : String) (N fuel : Nat) (hfuel : N ≤ fuel)
    (hdone0 : ctx.doneAtStart = false)
    (hfail : ∀ k, k < N → ((attemptResult r ns sa k).2).isSome = true)
    (hticks : ∀ j, j < N → ctx.doneBeforeTick j = false)
    (hsucc : attemptResult r ns sa N = (tok, none)) :
    ∃ out, serviceAccountToken w logger? (some r) ctx ns sa fuel = some out ∧
      out.token = tok ∧ out.err = none ∧ out.calls = N + 1 := by
  cases N with
  | zero =>
    exact ⟨{ token := tok, err := none, calls := 1, log := [] },
      by simp [serviceAccountToken, hdone0, hsucc], rfl, rfl, rfl⟩
  | succ n =>
    have h0 : ((attemptResult r ns sa 0).2).isSome = true := hfail 0 (by omega)
    cases ha : attemptResult r ns sa 0 with
    | mk tok0 oe =>
      cases oe with
      | none => rw [ha] at h0; simp at h0
      | some e0 =>
        have hticks' : ∀ j, j ≤ n → ctx.doneBeforeTick (0 + j) = false := by
          intro j hj
          rw [Nat.zero_add]
          exact hticks j (by omega)
        have hfails' : ∀ j, j < n → ((attemptResult r ns sa (1 + j)).2).isSome = true := by
          intro j hj
          have h := hfail (j + 1) (by omega)
          rwa [show j + 1 = 1 + j by omega] at h
        have hsucc' : attemptResult r ns sa (1 + n) = (tok, none) := by
          rwa [show n + 1 = 1 + n by omega] at hsucc
        obtain ⟨out, heq, htok, herr, hcalls⟩ :=
          pollLoop_success ctx (NewLogger logger?) r ns sa tok n 0 1 (some e0)
            ((NewLogger logger?) ("token not ready yet: " ++ e0)) fuel (by omega)
            hticks' hfails' hsucc'
        refine ⟨out, ?_, htok, herr, by omega⟩
        rw [show serviceAccountToken w logger? (some r) ctx ns sa fuel =
            pollLoop ctx (NewLogger logger?) r ns sa (some e0) 0 1
              ((NewLogger logger?) ("token not ready yet: " ++ e0)) fuel by
          simp [serviceAccountToken, hdone0, ha]]
        exact heq

/-- Witness for C2: one failing attempt, then a successful one; the
poller returns the parsed token after exactly two runner calls. -/
theorem serviceAccountToken_success_check :
    ∃ out,
      serviceAccountToken { osEnviron := [], execOutcome := fun _ _ => { stdout := "", stderr := "", fail := none } } none (some (fun k _ => if k = 0 then ("", some "boom") else ("\x7b\"status\":\x7b\"token\":\"abc123\"\x7d\x7d", none))) { doneAtStart := false, ctxErr := "context canceled", doneBeforeTick := fun _ => false } "default" "sa1" 1 = some out ∧
      out.token = "abc123" ∧ out.err = none ∧ out.calls = 1 + 1 :=
  serviceAccountToken_success_spec
    { osEnviron := [], execOutcome := fun _ _ => { stdout := "", stderr := "", fail := none } }
    none (fun k _ => if k = 0 then ("", some "boom") else ("\x7b\"status\":\x7b\"token\":\"abc123\"\x7d\x7d", none))
    { doneAtStart := false, ctxErr := "context canceled", doneBeforeTick := fun _ => false }
    "default" "sa1" "abc123" 1 1 (by omega) rfl
    (fun k hk => by
      have hk0 : k = 0 := by omega
      rw [hk0]
      rfl)
    (fun j hj => rfl)
    rfl

/-- Any loop outcome satisfies the token/error dichotomy. -/
theorem pollLoop_dichotomy (ctx : Ctx) (logger : Logger) (r : CmdRunner) (ns sa : String) :
    ∀ (fuel : Nat) (le : Option String) (sel calls : Nat) (log : List String) (out : PollOut),
      pollLoop ctx logger r ns sa le sel calls log fuel = some out →
      (out.err = none → out.token ≠ "") ∧ (out.err ≠ none → out.token = "") := by
  intro fuel
  induction fuel with
  | zero =>
    intro le sel calls log out h
    simp [pollLoop] at h
  | succ f ih =>
    intro le sel calls log out h
    by_cases hd : ctx.doneBeforeTick sel
    · rw [show pollLoop ctx logger r ns sa le sel calls log (f + 1) =
          some { token := "", err := some (le.getD ctx.ctxErr), calls := calls, log := log } by
        simp [pollLoop, hd]] at h
      injection h with h
      rw [← h]
      exact ⟨fun hc => by simp at hc, fun _ => rfl⟩
    · rcases tryOnce_cases ns sa (r calls (tokenCmd ns sa)) with ⟨e, he⟩ | ⟨t, ht, hok⟩
      · have ha : attemptResult r ns sa calls = ("", some e) := he
        rw [show pollLoop ctx logger r ns sa le sel calls log (f + 1) =
            pollLoop ctx logger r ns sa (some e) (sel + 1) (calls + 1)
              (log ++ logger ("token not ready yet: " ++ e)) f by
          simp [pollLoop, hd, ha]] at h
        exact ih _ _ _ _ _ h
      · have ha : attemptResult r ns sa calls = (t, none) := hok
        rw [show pollLoop ctx logger r ns sa le sel calls log (f + 1) =
            some { token := t, err := none, calls := calls + 1, log := log } by
          simp [pollLoop, hd, ha]] at h
        injection h with h
        rw [← h]
        exact ⟨fun _ => ht, fun hc => absurd rfl hc⟩

/-- C9: every terminating `ServiceAccountToken` call returns either a
non-empty token with no error, or an empty token with an error — never
both a token and an error, and never neither. -/
theorem serviceAccountToken_dichotomy (w : World) (logger? : Option Logger)
    (r? : Option CmdRunner) (ctx : Ctx) (ns sa : String) (fuel : Nat) (out : PollOut)
    (h : serviceAccountToken w logger? r? ctx ns sa fuel = some out) :
    (out.err = none → out.token ≠ "") ∧ (out.err ≠ none → out.token = "") := by
  by_cases hd : ctx.doneAtStart
  · rw [show serviceAccountToken w logger? r? ctx ns sa fuel =
        some { token := "", err := some ctx.ctxErr, calls := 0, log := [] } by
      simp [serviceAccountToken, hd]] at h
    injection h with h
    rw [← h]
    exact ⟨fun hc => by simp at hc, fun _ => rfl⟩
  · rcases tryOnce_cases ns sa ((r?.getD (defaultRunner w)) 0 (tokenCmd ns sa)) with
      ⟨e, he⟩ | ⟨t, ht, hok⟩
    · have ha : attemptResult (r?.getD (defaultRunner w)) ns sa 0 = ("", some e) := he
      rw [show serviceAccountToken w logger? r? ctx ns sa fuel =
          pollLoop ctx (NewLogger logger?) (r?.getD (defaultRunner w)) ns sa (some e) 0 1
            ((NewLogger logger?) ("token not ready yet: " ++ e)) fuel by
        simp [serviceAccountToken, hd, ha]] at h
      exact pollLoop_dichotomy ctx (NewLogger logger?) (r?.getD (defaultRunner w)) ns sa
        fuel _ _ _ _ out h
    · have ha : attemptResult (r?.getD (defaultRunner w)) ns sa 0 = (t, none) := hok
      rw [show serviceAccountToken w logger? r? ctx ns sa fuel =
          some { token := t, err := none, calls := 1, log := [] } by
        simp [serviceAccountToken, hd, ha]] at h
      injection h with h
      rw [← h]
      exact ⟨fun _ => ht, fun hc => absurd rfl hc⟩

/-- Witness for C9 at a first-attempt success: the returned pair is a
non-empty token with no error. -/
theorem serviceAccountToken_dichotomy_check :
    (({ token := "abc123", err := none, calls := 1, log := [] } : PollOut).err = none →
      ({ token := "abc123", err := none, calls := 1, log := [] } : PollOut).token ≠ "") ∧
    (({ token := "abc123", err := none, calls := 1, log := [] } : PollOut).err ≠ none →
      ({ token := "abc123", err := none, calls := 1, log := [] } : PollOut).token = "") :=
  serviceAccountToken_dichotomy
    { osEnviron := [], execOutcome := fun _ _ => { stdout := "", stderr := "", fail := none } }
    none (some (fun _ _ => ("\x7b\"status\":\x7b\"token\":\"abc123\"\x7d\x7d", none)))
    { doneAtStart := false, ctxErr := "context canceled", doneBeforeTick := fun _ => false }
    "default" "sa1" 0 { token := "abc123", err := none, calls := 1, log := [] } rfl

end MyOp
